import Mathlib

/-!
Shallow embedding of `guusec/bucketchecker` (`src/main.rs`): target
classification (`extract_target`), probe-URL construction
(`construct_read_url`, `construct_write_url`), response interpretation
(`check_read`, `check_write`) and the result aggregation of `main`.

Strings are modelled through their character lists (`String.data`); the
Rust `str` methods used by the source (`trim`, `is_empty`, `ends_with`,
`starts_with`, `split`, `trim_end_matches`, `contains`) are embedded as
the helpers below. HTTP is modelled by passing the outcome of a request
explicitly: `none` is a transport-level failure (connection error, DNS
failure, timeout), `some r` a received response with numeric status and
body text.
-/

/-- The `Provider` enum of `main.rs`. -/
inductive Provider where
  | AwsS3
  | AzureBlob
  | GcpStorage
  | DigitalOceanSpaces
  | LinodeObjStorage
  | Unknown
deriving DecidableEq, Repr

/-- The `BucketTarget` struct of `main.rs`. -/
structure BucketTarget where
  provider : Provider
  bucket : String
deriving DecidableEq, Repr

/-- Embeds Rust `str::trim`: drop whitespace from both ends. -/
def strTrim (s : String) : String :=
  String.mk (((s.data.dropWhile Char.isWhitespace).reverse.dropWhile
      Char.isWhitespace).reverse)

/-- Embeds Rust `str::ends_with` on a string pattern. -/
def strEndsWith (s pat : String) : Bool :=
  decide (pat.data <:+ s.data)

/-- Embeds Rust `str::starts_with` on a string pattern. -/
def strStartsWith (s pat : String) : Bool :=
  decide (pat.data <+: s.data)

/-- Embeds Rust `str::contains` on a string pattern. -/
def strContains (s pat : String) : Bool :=
  decide (pat.data <:+: s.data)

/-- Embeds Rust `char`-separator `str::split`: every separator occurrence
splits, empty pieces are kept, and the result is never the empty list. -/
def splitOnChar (c : Char) : List Char → List (List Char)
  | [] => [[]]
  | x :: xs =>
    let rest := splitOnChar c xs
    if x = c then [] :: rest
    else (x :: rest.headD []) :: rest.tail

/-- String-level wrapper for `splitOnChar`. -/
def strSplitOn (c : Char) (s : String) : List String :=
  (splitOnChar c s.data).map String.mk

/-- Core of `trim_end_matches`: remove copies of `pat` from the end of `l`
while it still ends with `pat`. Each removal shortens the list by at least
one character, so `l.length` steps of fuel always suffice. -/
def dropSuffixAllFuel (pat : List Char) : Nat → List Char → List Char
  | 0, l => l
  | fuel + 1, l =>
    if pat ≠ [] ∧ pat <:+ l then
      dropSuffixAllFuel pat fuel (l.take (l.length - pat.length))
    else l

/-- Embeds Rust `str::trim_end_matches` on a string pattern: repeatedly
removes trailing occurrences of `pat` (not just one). -/
def trim_end_matches (s pat : String) : String :=
  String.mk (dropSuffixAllFuel pat.data s.data.length s.data)

/-- `extract_target` from `main.rs` (lines 38-88): trims the line, rejects
blank lines, then tries the provider patterns in source order, falling
back to `Unknown` with the full trimmed text. -/
def extract_target (line : String) : Option BucketTarget :=
  let trimmed := strTrim line
  if trimmed.data = [] then
    none
  else if strEndsWith trimmed ".s3.amazonaws.com" then
    some ⟨Provider.AwsS3, trim_end_matches trimmed ".s3.amazonaws.com"⟩
  else if strStartsWith trimmed "s3.amazonaws.com/" ∧
      2 ≤ (strSplitOn '/' trimmed).length then
    some ⟨Provider.AwsS3, (strSplitOn '/' trimmed).getD 1 ""⟩
  else if strEndsWith trimmed ".digitaloceanspaces.com" then
    some ⟨Provider.DigitalOceanSpaces, (strSplitOn '.' trimmed).headD trimmed⟩
  else if strEndsWith trimmed ".linodeobjects.com" then
    some ⟨Provider.LinodeObjStorage, (strSplitOn '.' trimmed).headD trimmed⟩
  else if strEndsWith trimmed ".blob.core.windows.net" then
    some ⟨Provider.AzureBlob, (strSplitOn '.' trimmed).headD trimmed⟩
  else if strEndsWith trimmed ".storage.googleapis.com" then
    some ⟨Provider.GcpStorage, trim_end_matches trimmed ".storage.googleapis.com"⟩
  else if strStartsWith trimmed "storage.googleapis.com/" ∧
      2 ≤ (strSplitOn '/' trimmed).length then
    some ⟨Provider.GcpStorage, (strSplitOn '/' trimmed).getD 1 ""⟩
  else
    some ⟨Provider.Unknown, trimmed⟩

/-- `get_provider_domain` from `main.rs`. -/
def get_provider_domain : Provider → String
  | Provider.AwsS3 => "s3.amazonaws.com"
  | Provider.DigitalOceanSpaces => "nyc3.digitaloceanspaces.com"
  | Provider.LinodeObjStorage => "us-east-1.linodeobjects.com"
  | _ => ""

/-- The fixed test-object key used by `construct_write_url`. -/
def test_object : String := "codecompanion-test-object.txt"

/-- `construct_read_url` from `main.rs`. -/
def construct_read_url (t : BucketTarget) : String :=
  match t.provider with
  | Provider.AwsS3 | Provider.DigitalOceanSpaces | Provider.LinodeObjStorage =>
    "http://" ++ t.bucket ++ "." ++ get_provider_domain t.provider
  | Provider.AzureBlob =>
    "https://" ++ t.bucket ++ ".blob.core.windows.net/?restype=container&comp=list"
  | Provider.GcpStorage =>
    "https://storage.googleapis.com/" ++ t.bucket ++ "/"
  | Provider.Unknown =>
    "http://" ++ t.bucket

/-- `construct_write_url` from `main.rs`. -/
def construct_write_url (t : BucketTarget) : String :=
  match t.provider with
  | Provider.AwsS3 | Provider.DigitalOceanSpaces | Provider.LinodeObjStorage =>
    "http://" ++ t.bucket ++ "." ++ get_provider_domain t.provider ++ "/" ++ test_object
  | Provider.AzureBlob =>
    "https://" ++ t.bucket ++ ".blob.core.windows.net/" ++ test_object
  | Provider.GcpStorage =>
    "https://storage.googleapis.com/" ++ t.bucket ++ "/" ++ test_object
  | Provider.Unknown =>
    "http://" ++ t.bucket ++ "/" ++ test_object

/-- `provider_str` from `main.rs`. -/
def provider_str : Provider → String
  | Provider.AwsS3 => "AWS S3"
  | Provider.AzureBlob => "Azure Blob"
  | Provider.GcpStorage => "GCP Storage"
  | Provider.DigitalOceanSpaces => "DigitalOcean Spaces"
  | Provider.LinodeObjStorage => "Linode Object Storage"
  | Provider.Unknown => "Unknown"

/-- An HTTP response as observed by the probes: numeric status code plus
body text. A whole probe outcome is `Option HttpResponse`, where `none`
is a transport-level failure. -/
structure HttpResponse where
  status : Nat
  body : String
deriving DecidableEq, Repr

/-- Embeds `reqwest::StatusCode::is_success`: status in `200..=299`. -/
def status_is_success (st : Nat) : Bool :=
  decide (200 ≤ st ∧ st ≤ 299)

/-- `check_read` from `main.rs` (lines 129-144), with the network call
replaced by its outcome `resp`. -/
def check_read (t : BucketTarget) (resp : Option HttpResponse) : Bool :=
  match resp with
  | some r =>
    match t.provider with
    | Provider.AwsS3 | Provider.DigitalOceanSpaces | Provider.LinodeObjStorage =>
      status_is_success r.status && strContains r.body "<ListBucketResult"
    | Provider.AzureBlob =>
      status_is_success r.status && strContains r.body "EnumerationResults"
    | Provider.GcpStorage =>
      status_is_success r.status &&
        (strContains r.body "ListBucketResult" || strContains r.body "xml")
    | _ => false
  | none => false

/-- `check_write` from `main.rs` (lines 146-154), with the network call
replaced by its outcome `resp`. -/
def check_write (_t : BucketTarget) (resp : Option HttpResponse) : Bool :=
  match resp with
  | some r => status_is_success r.status
  | none => false

/-- One collected element of the `results` vector of `main`:
provider, bucket, readable, writable. -/
abbrev Outcome := Provider × String × Bool × Bool

/-- The `results` vector collected by `main` (lines 180-195). `rayon`'s
`par_iter().map(...).collect()` returns elements in the order of the input
lines, so the collection is modelled as a sequential `filterMap`; the
network is modelled by per-target response oracles. -/
def run_targets (netRead netWrite : BucketTarget → Option HttpResponse)
    (lines : List String) : List Outcome :=
  lines.filterMap fun line =>
    (extract_target line).map fun t =>
      (t.provider, t.bucket, check_read t (netRead t), check_write t (netWrite t))

/-- The `perms` vector built in the summary loop of `main`. -/
def perms_of (readable writable : Bool) : List String :=
  (if readable then ["read"] else []) ++ (if writable then ["write"] else [])

/-- One printed summary line of `main` (lines 204-210). -/
def summary_line (o : Outcome) : String :=
  provider_str o.1 ++ " | " ++ o.2.1 ++ " | [" ++
    String.intercalate ", " (perms_of o.2.2.1 o.2.2.2) ++ "]"

/-- The summary loop of `main` (lines 199-211): walk the collected results
in order and print a line for each outcome with an open permission. -/
def summary_lines_of : List Outcome → List String
  | [] => []
  | o :: rest =>
    if o.2.2.1 || o.2.2.2 then summary_line o :: summary_lines_of rest
    else summary_lines_of rest

example : extract_target "mybucket.s3.amazonaws.com"
    = some ⟨Provider.AwsS3, "mybucket"⟩ := by decide

example : extract_target "  " = none := by decide

example : extract_target "s3.amazonaws.com/otherbucket"
    = some ⟨Provider.AwsS3, "otherbucket"⟩ := by decide

/-! ### Helper lemmas -/

lemma extract_target_isSome_eq (line : String) :
    (extract_target line).isSome = !((strTrim line).data.isEmpty) := by
  unfold extract_target
  cases h : (strTrim line).data with
  | nil => simp [h]
  | cons c cs => simp only [h]; split_ifs <;> simp_all

lemma strEndsWith_conflict {s p₁ p₂ : String} (h : strEndsWith s p₁ = true)
    (h₁ : ¬ (p₁.data <:+ p₂.data)) (h₂ : ¬ (p₂.data <:+ p₁.data)) :
    strEndsWith s p₂ = false := by
  have hs := of_decide_eq_true h
  rw [strEndsWith, decide_eq_false_iff_not]
  intro hc
  rcases List.suffix_or_suffix_of_suffix hs hc with h' | h'
  · exact h₁ h'
  · exact h₂ h'

lemma strEndsWith_ne_nil {s p : String} (hp : p.data ≠ [])
    (h : strEndsWith s p = true) : s.data ≠ [] := by
  have hs := of_decide_eq_true h
  intro h0
  rw [h0] at hs
  exact hp (List.suffix_nil.mp hs)

/-! ### Claim theorems -/

/-- C1: classification is total over non-empty input: for every line whose
trimmed text is non-empty, `extract_target` returns exactly one target
(the embedding is a total function, so no panic and no error is possible),
and for every blank or whitespace-only line it returns nothing. -/
theorem extract_target_total (line : String) :
    ((extract_target line).isSome = true ↔ strTrim line ≠ "") ∧
    (extract_target line = none ↔ strTrim line = "") := by
  have h := extract_target_isSome_eq line
  have hd : strTrim line = "" ↔ (strTrim line).data.isEmpty = true := by
    rw [String.ext_iff, List.isEmpty_iff]
  constructor
  · rw [h]
    simp only [Ne, hd]
    cases hb : (strTrim line).data.isEmpty <;> simp [hb]
  · rw [← Option.not_isSome_iff_eq_none, h]
    simp only [hd]
    cases hb : (strTrim line).data.isEmpty <;> simp [hb]

/-- C3: the provider patterns are applied in the fixed priority order of
the source (first match wins); the seven example classifications of the
spec all hold. -/
theorem classify_priority_examples :
    extract_target "mybucket.s3.amazonaws.com" = some ⟨Provider.AwsS3, "mybucket"⟩ ∧
    extract_target "s3.amazonaws.com/otherbucket" = some ⟨Provider.AwsS3, "otherbucket"⟩ ∧
    extract_target "foo.digitaloceanspaces.com"
      = some ⟨Provider.DigitalOceanSpaces, "foo"⟩ ∧
    extract_target "cont.blob.core.windows.net" = some ⟨Provider.AzureBlob, "cont"⟩ ∧
    extract_target "bkt.storage.googleapis.com" = some ⟨Provider.GcpStorage, "bkt"⟩ ∧
    extract_target "storage.googleapis.com/bkt2" = some ⟨Provider.GcpStorage, "bkt2"⟩ ∧
    extract_target "random-host.example.com"
      = some ⟨Provider.Unknown, "random-host.example.com"⟩ := by
  decide

/-- C10: classification accepts recognized patterns with an empty bucket
name: ".s3.amazonaws.com" and "s3.amazonaws.com/" both classify as AWS S3
with bucket `""`, so URL construction can receive an empty bucket. -/
theorem empty_bucket_classification :
    extract_target ".s3.amazonaws.com" = some ⟨Provider.AwsS3, ""⟩ ∧
    extract_target "s3.amazonaws.com/" = some ⟨Provider.AwsS3, ""⟩ := by
  decide

/-- C9: classification and URL building are deterministic pure functions:
equal input lines classify to equal targets, and equal targets produce
equal read-probe and write-probe URLs. -/
theorem classify_and_urls_deterministic (l₁ l₂ : String) (t₁ t₂ : BucketTarget)
    (hl : l₁ = l₂) (ht : t₁ = t₂) :
    extract_target l₁ = extract_target l₂ ∧
    construct_read_url t₁ = construct_read_url t₂ ∧
    construct_write_url t₁ = construct_write_url t₂ := by
  subst hl; subst ht; exact ⟨rfl, rfl, rfl⟩

/-- Witness for C9 at a concrete line and target. -/
theorem classify_and_urls_deterministic_witness :
    extract_target "b.s3.amazonaws.com" = extract_target "b.s3.amazonaws.com" ∧
    construct_read_url ⟨Provider.AwsS3, "b"⟩ = construct_read_url ⟨Provider.AwsS3, "b"⟩ ∧
    construct_write_url ⟨Provider.AwsS3, "b"⟩
      = construct_write_url ⟨Provider.AwsS3, "b"⟩ :=
  classify_and_urls_deterministic _ _ _ _ rfl rfl

/-- C5: for every provider (`check_write` ignores the target entirely),
the write probe reports `true` iff the request succeeded at the transport
level and the status is in the 2xx range; the response body is never
inspected (same status with different bodies gives the same answer). -/
theorem check_write_spec (t : BucketTarget) (resp : Option HttpResponse) :
    (check_write t resp = true ↔ ∃ r, resp = some r ∧ 200 ≤ r.status ∧ r.status ≤ 299) ∧
    (∀ (st : Nat) (b₁ b₂ : String) (t' : BucketTarget),
      check_write t (some ⟨st, b₁⟩) = check_write t' (some ⟨st, b₂⟩)) := by
  constructor
  · cases resp with
    | none => simp [check_write]
    | some r => simp [check_write, status_is_success]
  · intro st b₁ b₂ t'
    rfl

/-- C2: the read probe reports `true` iff the request succeeded at the
transport level, the status is 2xx, and the body contains the
provider-specific marker (`<ListBucketResult` for AWS S3 / DigitalOcean
Spaces / Linode, `EnumerationResults` for Azure Blob, `ListBucketResult`
or `xml` for GCP Storage); for provider `Unknown` it is `false` for every
response. -/
theorem check_read_spec (t : BucketTarget) (resp : Option HttpResponse) :
    check_read t resp = true ↔
      ∃ r, resp = some r ∧ status_is_success r.status = true ∧
        (match t.provider with
         | Provider.AwsS3 | Provider.DigitalOceanSpaces | Provider.LinodeObjStorage =>
           strContains r.body "<ListBucketResult" = true
         | Provider.AzureBlob => strContains r.body "EnumerationResults" = true
         | Provider.GcpStorage =>
           strContains r.body "ListBucketResult" = true ∨ strContains r.body "xml" = true
         | Provider.Unknown => False) := by
  obtain ⟨p, b⟩ := t
  cases resp with
  | none => cases p <;> simp [check_read]
  | some r =>
    cases p <;>
      simp [check_read, Bool.and_eq_true, Bool.or_eq_true, and_assoc]

lemma run_targets_length (netRead netWrite : BucketTarget → Option HttpResponse)
    (lines : List String) :
    (run_targets netRead netWrite lines).length
      = (lines.filter fun l => !((strTrim l).data.isEmpty)).length := by
  induction lines with
  | nil => rfl
  | cons l ls ih =>
    have h := extract_target_isSome_eq l
    cases hb : (strTrim l).data.isEmpty with
    | true =>
      rw [hb] at h
      have hn : extract_target l = none := by
        cases he : extract_target l with
        | none => rfl
        | some t => rw [he] at h; simp at h
      simp only [run_targets, List.filterMap_cons, List.filter_cons, hn, hb] at ih ⊢
      simpa [run_targets] using ih
    | false =>
      rw [hb] at h
      cases he : extract_target l with
      | none => rw [he] at h; simp at h
      | some t =>
        simp only [run_targets, List.filterMap_cons, List.filter_cons, he, hb] at ih ⊢
        simpa [run_targets] using ih

/-- C4: a transport-level failure (`none` outcome) makes both probes
report `false` for that target; the checks return plain booleans (no
error propagation), and the run still produces one collected outcome per
non-blank input line whatever the network oracles answer, so one target's
failure never reduces the result set of the others. -/
theorem transport_failure_local (t : BucketTarget)
    (netRead netWrite : BucketTarget → Option HttpResponse) (lines : List String) :
    check_read t none = false ∧ check_write t none = false ∧
    (run_targets netRead netWrite lines).length
      = (lines.filter fun l => !((strTrim l).data.isEmpty)).length :=
  ⟨rfl, rfl, run_targets_length netRead netWrite lines⟩

/-- C8 counterexample: for an `Unknown` target the code's read-probe URL
has no trailing slash: on bucket text "random-host.example.com" it is
"http://random-host.example.com", not "http://random-host.example.com/"
as the claim states. -/
theorem unknown_url_cex :
    construct_read_url ⟨Provider.Unknown, "random-host.example.com"⟩
      = "http://random-host.example.com" ∧
    ("http://random-host.example.com" : String) ≠ "http://random-host.example.com/" := by
  constructor
  · rfl
  · decide

/-- C8 amended: for an `Unknown` target the read-probe URL is
`http://<bucketName>` (no trailing slash) and the write-probe URL is the
read URL with `/<test-object-key>` appended. -/
theorem unknown_url_amended (b : String) :
    construct_read_url ⟨Provider.Unknown, b⟩ = "http://" ++ b ∧
    construct_write_url ⟨Provider.Unknown, b⟩
      = construct_read_url ⟨Provider.Unknown, b⟩ ++ "/" ++ test_object :=
  ⟨rfl, rfl⟩

/-- C7 counterexample: `trim_end_matches` strips the suffix repeatedly,
not once: "a.s3.amazonaws.com.s3.amazonaws.com" classifies to bucket "a",
not "a.s3.amazonaws.com" as stripping the suffix once would give; and a
line ending in ".storage.googleapis.com" that begins with
"s3.amazonaws.com/" is taken by the earlier AWS path pattern, so it does
not classify as GCP Storage. -/
theorem suffix_strip_cex :
    extract_target "a.s3.amazonaws.com.s3.amazonaws.com"
      = some ⟨Provider.AwsS3, "a"⟩ ∧
    ("a" : String) ≠ "a.s3.amazonaws.com" ∧
    extract_target "s3.amazonaws.com/x.storage.googleapis.com"
      = some ⟨Provider.AwsS3, "x.storage.googleapis.com"⟩ ∧
    Provider.AwsS3 ≠ Provider.GcpStorage := by
  refine ⟨by decide, by decide, by decide, by decide⟩

/-- C7 amended: for every line whose trimmed text ends with
".s3.amazonaws.com", classification yields AWS S3 with bucket equal to
the text with all trailing repetitions of that suffix removed; for every
line whose trimmed text ends with ".storage.googleapis.com" and does not
begin with "s3.amazonaws.com/", classification yields GCP Storage with
bucket equal to the text with all trailing repetitions of that suffix
removed. -/
theorem suffix_strip_amended (line : String) :
    (strEndsWith (strTrim line) ".s3.amazonaws.com" = true →
      extract_target line
        = some ⟨Provider.AwsS3, trim_end_matches (strTrim line) ".s3.amazonaws.com"⟩) ∧
    (strEndsWith (strTrim line) ".storage.googleapis.com" = true →
      strStartsWith (strTrim line) "s3.amazonaws.com/" = false →
      extract_target line
        = some ⟨Provider.GcpStorage,
            trim_end_matches (strTrim line) ".storage.googleapis.com"⟩) := by
  constructor
  · intro h1
    have h0 : (strTrim line).data ≠ [] := strEndsWith_ne_nil (by decide) h1
    simp [extract_target, h0, h1]
  · intro h1 h2
    have h0 : (strTrim line).data ≠ [] := strEndsWith_ne_nil (by decide) h1
    have e1 : strEndsWith (strTrim line) ".s3.amazonaws.com" = false :=
      strEndsWith_conflict h1 (by decide) (by decide)
    have e3 : strEndsWith (strTrim line) ".digitaloceanspaces.com" = false :=
      strEndsWith_conflict h1 (by decide) (by decide)
    have e4 : strEndsWith (strTrim line) ".linodeobjects.com" = false :=
      strEndsWith_conflict h1 (by decide) (by decide)
    have e5 : strEndsWith (strTrim line) ".blob.core.windows.net" = false :=
      strEndsWith_conflict h1 (by decide) (by decide)
    simp [extract_target, h0, h1, h2, e1, e3, e4, e5]

/-- Witness for the amended C7 at concrete lines of each kind. -/
theorem suffix_strip_amended_witness :
    extract_target "mybucket.s3.amazonaws.com"
      = some ⟨Provider.AwsS3,
          trim_end_matches (strTrim "mybucket.s3.amazonaws.com") ".s3.amazonaws.com"⟩ ∧
    extract_target "bkt.storage.googleapis.com"
      = some ⟨Provider.GcpStorage,
          trim_end_matches (strTrim "bkt.storage.googleapis.com")
            ".storage.googleapis.com"⟩ :=
  ⟨(suffix_strip_amended "mybucket.s3.amazonaws.com").1 (by decide),
   (suffix_strip_amended "bkt.storage.googleapis.com").2 (by decide) (by decide)⟩

/-- C6 counterexample: the summary walks the collected `results` vector,
which `rayon`'s order-preserving `collect` keeps in input order, not in
the completion order of the immediate per-target lines. With two open
outcomes collected in input order `[a-outcome, b-outcome]` and completion
order `[b-outcome, a-outcome]` (a permutation of the same outcomes), the
code's summary differs from the open-permission lines taken in completion
order, so the claimed ordering fails. -/
theorem summary_completion_order_cex :
    List.Perm
      [((Provider.AzureBlob, "b", true, false) : Outcome),
        (Provider.AwsS3, "a", true, false)]
      [((Provider.AwsS3, "a", true, false) : Outcome),
        (Provider.AzureBlob, "b", true, false)] ∧
    summary_lines_of
        [(Provider.AwsS3, "a", true, false), (Provider.AzureBlob, "b", true, false)]
      ≠ summary_lines_of
        [(Provider.AzureBlob, "b", true, false), (Provider.AwsS3, "a", true, false)] := by
  constructor
  · exact List.Perm.swap _ _ _
  · decide

/-- C6 amended: the final summary lists exactly the collected targets for
which `readable || writable` holds, each annotated with the permissions
found, in the order of the collected `results` vector — which is the
input order of the classified lines, not the completion order of the
immediate per-target output. -/
theorem summary_input_order (netRead netWrite : BucketTarget → Option HttpResponse)
    (lines : List String) :
    summary_lines_of (run_targets netRead netWrite lines)
      = ((run_targets netRead netWrite lines).filter fun o => o.2.2.1 || o.2.2.2).map
          summary_line := by
  generalize run_targets netRead netWrite lines = rs
  induction rs with
  | nil => rfl
  | cons o os ih =>
    by_cases h : (o.2.2.1 || o.2.2.2) = true
    · simp [summary_lines_of, List.filter_cons, h, ih]
    · simp [summary_lines_of, List.filter_cons, h, ih]
